import Mathlib

/-!
Verification development for the `edgo` Telegram-bot repository (`app.py`).

The Python source is shallowly embedded below: pure helpers (`split_message`,
`format_bullet_points`, phrase lookup) become Lean functions on `List Char` /
`String`; the per-user session dictionary becomes a record of optional fields;
handlers become functions from a session snapshot, an incoming message and
oracles for the external collaborators (Gemini result, Telegram send results,
PDF rendering, the translator) to the list of attempted outbound effects and
the resulting stored session.  The message chunker's `while` loop is embedded
with explicit fuel (`splitRun`), since the loop is not obviously terminating.
-/

namespace Edgo

/-! ## Python string helpers -/

/-- The whitespace characters recognised by Python's `str.strip()`
(restricted to the ASCII range, which is all the code manipulates). -/
def isPyWS (c : Char) : Bool :=
  c = ' ' || c = '\n' || c = '\t' || c = '\r' || c = '\x0b' || c = '\x0c'

/-- Python `str.strip()` on a list of characters. -/
def pyStrip (l : List Char) : List Char :=
  ((l.dropWhile isPyWS).reverse.dropWhile isPyWS).reverse

/-- Python `str.strip()` on a `String`. -/
def pyStripS (s : String) : String := String.mk (pyStrip s.toList)

/-- Python `str.lower()` (ASCII). -/
def asciiLower (s : String) : String := String.mk (s.toList.map Char.toLower)

/-- Python `str.capitalize()` (ASCII): first character upper-cased,
the rest lower-cased. -/
def asciiCapitalize (s : String) : String :=
  match s.toList with
  | [] => ""
  | c :: cs => String.mk (c.toUpper :: cs.map Char.toLower)

/-- Replace each `\x7b\x7d` placeholder pair by `arg`
(Python `str.format` with a single positional argument). -/
def replaceBraces (arg : List Char) : List Char → List Char
  | '\x7b' :: '\x7d' :: rest => arg ++ replaceBraces arg rest
  | c :: rest => c :: replaceBraces arg rest
  | [] => []

/-- Python `phrase.format(arg)` for phrases with `\x7b\x7d` placeholders. -/
def pyFormat (phrase arg : String) : String :=
  String.mk (replaceBraces arg.toList phrase.toList)

/-- Python `text.split('\n')`. -/
def splitLines : List Char → List (List Char)
  | [] => [[]]
  | '\n' :: rest => [] :: splitLines rest
  | c :: rest =>
    match splitLines rest with
    | [] => [[c]]
    | l :: ls => (c :: l) :: ls

/-- Python `'\n'.join(lines)`. -/
def joinLines (ls : List (List Char)) : List Char :=
  (ls.intersperse ['\n']).flatten

/-! ## `split_message` — the message chunker (`app.py`, lines 251-270)

```python
def split_message(text, chunk_size=1400):
    parts = []
    start = 0
    while start < len(text):
        end = min(start + chunk_size, len(text))
        if end < len(text) and text[end] not in (' ', '\n', '\t'):
            last_space = text.rfind(' ', start, end)
            if last_space != -1:
                end = last_space
        chunk = text[start:end].strip()
        if chunk:
            parts.append(chunk)
        start = end
    return parts
```

The loop body is `splitStep`; the loop itself is `splitRun`, driven by
explicit fuel because the body does not always advance `start`. -/

/-- The boundary test `text[end] not in (' ', '\n', '\t')` (negated form). -/
def isBreakChar (c : Char) : Bool := c = ' ' || c = '\n' || c = '\t'

/-- `text[i] == ' '` with an out-of-range read defaulting to a non-space. -/
def spaceAt (text : List Char) (i : Nat) : Bool := text.getD i '\x00' = ' '

/-- Helper for `rfindSpace`: highest `i` in `[a, a + fuel)` with `text[i] = ' '`. -/
def rfindSpaceAux (text : List Char) (a : Nat) : Nat → Option Nat
  | 0 => none
  | k + 1 => if spaceAt text (a + k) then some (a + k) else rfindSpaceAux text a k

/-- Python `text.rfind(' ', a, b)` (with `none` for `-1`):
the highest index `i ∈ [a, b)` with `text[i] = ' '`. -/
def rfindSpace (text : List Char) (a b : Nat) : Option Nat :=
  rfindSpaceAux text a (b - a)

/-- Python slice `text[a:b]`. -/
def slice (text : List Char) (a b : Nat) : List Char := (text.drop a).take (b - a)

/-- The `end` position computed by one iteration of the `split_message` loop:
`end = min(start + chunk_size, len(text))`, moved back to the last space in
the window when the character right after the window is not a break char. -/
def splitEnd (text : List Char) (chunk_size start : Nat) : Nat :=
  let n := text.length
  let e0 := min (start + chunk_size) n
  if e0 < n && !isBreakChar (text.getD e0 '\x00') then
    match rfindSpace text start e0 with
    | some i => i
    | none => e0
  else e0

/-- One iteration of the `split_message` loop: from the current `start`,
compute the next `start` and the (possibly dropped) chunk. -/
def splitStep (text : List Char) (chunk_size start : Nat) : Nat × Option (List Char) :=
  let e1 := splitEnd text chunk_size start
  let chunk := pyStrip (slice text start e1)
  (e1, if chunk.isEmpty then none else some chunk)

/-- The `split_message` loop with explicit fuel.  Returns `none` when the fuel
is exhausted with `start` still inside the text (i.e. the Python loop would
still be running). -/
def splitRun (text : List Char) (chunk_size : Nat) : Nat → Nat → Option (List (List Char))
  | 0, start => if start < text.length then none else some []
  | fuel + 1, start =>
    if start < text.length then
      match splitRun text chunk_size fuel (splitStep text chunk_size start).1 with
      | none => none
      | some rest =>
        match (splitStep text chunk_size start).2 with
        | some c => some (c :: rest)
        | none => some rest
    else some []

/-- `split_message`: run the loop with fuel `length + 1`, which is enough for
every terminating execution (a terminating loop advances `start` by at least
one character per iteration). -/
def split_message (text : List Char) (chunk_size : Nat := 1400) : Option (List (List Char)) :=
  splitRun text chunk_size (text.length + 1) 0

/-! ## `format_bullet_points` (`app.py`, lines 272-284) -/

/-- One line of `format_bullet_points`: if the stripped line starts with
`"* "`, replace that marker by `"➤ "` on the stripped line; otherwise keep
the line unchanged. -/
def formatBulletLine (line : List Char) : List Char :=
  let st := pyStrip line
  if st.take 2 = ['*', ' '] then '➤' :: ' ' :: st.drop 2 else line

/-- `format_bullet_points(text)`. -/
def format_bullet_points (text : String) : String :=
  String.mk (joinLines ((splitLines text.toList).map formatBulletLine))

/-! ## `call_gemini` — the Upstream Generation Client (`app.py`, lines 176-219)

Each network attempt is modelled by an oracle `attempts : Nat → AttemptResult`
giving the outcome of the `requests.post` issued at retry counter `n`:
* `rateLimited` — HTTP 429 (the only case the loop retries);
* `timeout` — `requests` raises a timeout exception, which propagates to the
  outer `except` and yields `None`;
* `httpError` — any other non-2xx status: `raise_for_status()` raises, again
  yielding `None` via the outer `except`;
* `ok t` — a 2xx response whose parsed body has
  `candidates[0].content.parts[0].text = txt` when `t = some txt`, and is
  missing that path (malformed) when `t = none`.
-/

inductive AttemptResult where
  | rateLimited
  | timeout
  | httpError
  | ok (text : Option String)
deriving DecidableEq

/-- The retry loop of `call_gemini`, returning the result together with the
number of attempts actually issued.  `fuel = max_retries - retries` mirrors
the loop condition `while retries < max_retries`; exhausting it is the
`retries == max_retries → return None` path. -/
def callGeminiFrom (attempts : Nat → AttemptResult) : Nat → Nat → Option String × Nat
  | _, 0 => (none, 0)
  | retries, fuel + 1 =>
    match attempts retries with
    | .rateLimited =>
      let r := callGeminiFrom attempts (retries + 1) fuel
      (r.1, r.2 + 1)
    | .timeout => (none, 1)
    | .httpError => (none, 1)
    | .ok t =>
      (match t with
       | some txt => some (pyStripS txt)
       | none => none, 1)

def max_retries : Nat := 3

/-- `call_gemini(prompt)`: the text result (`None` becomes `none`). -/
def call_gemini (attempts : Nat → AttemptResult) : Option String :=
  (callGeminiFrom attempts 0 max_retries).1

/-- The number of network attempts `call_gemini` issues. -/
def call_gemini_attempts (attempts : Nat → AttemptResult) : Nat :=
  (callGeminiFrom attempts 0 max_retries).2

/-! ## Sessions and the session store (`app.py`, lines 37-140)

`user_state` maps a chat id to a Python dict whose keys (as written anywhere
in the code) are `step`, `topic`, `language` and `full_notes`; the spec's
data model additionally names a `processing` flag, which a dict can hold, so
the record carries that field as well.  All store operations run under the
single `user_state_lock`, so each one is a single atomic step. -/

structure Session where
  step : Option String := none
  topic : Option String := none
  language : Option String := none
  full_notes : Option String := none
  processing : Option Bool := none
deriving DecidableEq

def emptySession : Session := {}

/-- A partial dict passed to `user_state[chat_id].update(...)`:
`some v` means the key is present in the update dict. -/
structure SessionUpdate where
  step : Option String := none
  topic : Option String := none
  language : Option String := none
  full_notes : Option String := none
  processing : Option Bool := none
deriving DecidableEq

/-- Python `dict.update`: keys present in `u` overwrite `s`. -/
def applyUpdate (s : Session) (u : SessionUpdate) : Session where
  step := match u.step with | some v => some v | none => s.step
  topic := match u.topic with | some v => some v | none => s.topic
  language := match u.language with | some v => some v | none => s.language
  full_notes := match u.full_notes with | some v => some v | none => s.full_notes
  processing := match u.processing with | some v => some v | none => s.processing

/-- The session store: `none` means the chat id is absent from `user_state`. -/
def Store := Nat → Option Session

/-- `get_user_state(chat_id)`: `user_state.get(chat_id, {}).copy()`. -/
def get_user_state (store : Store) (chat_id : Nat) : Session :=
  (store chat_id).getD emptySession

/-- `set_user_state(chat_id, state)`. -/
def set_user_state (store : Store) (chat_id : Nat) (s : Session) : Store :=
  fun i => if i = chat_id then some s else store i

/-- `update_user_state(chat_id, updates)`: create `\x7b\x7d` if absent, then
`dict.update`. -/
def update_user_state (store : Store) (chat_id : Nat) (u : SessionUpdate) : Store :=
  fun i =>
    if i = chat_id then some (applyUpdate ((store chat_id).getD emptySession) u)
    else store i

/-- `cleanup_user_state(chat_id)`: `user_state.pop(chat_id, None)`. -/
def cleanup_user_state (store : Store) (chat_id : Nat) : Store :=
  fun i => if i = chat_id then none else store i

/-! ## Conversation-state constants and phrases (`app.py`, lines 51-88) -/

def STATE_MENU : String := "menu"
def STATE_LEARN_TOPIC : String := "learn_topic"
def STATE_MCQ_TOPIC : String := "mcq_topic"
def STATE_LEARN_LANGUAGE_SELECTION : String := "learn_language_selection"
def STATE_MCQ_LANGUAGE_SELECTION : String := "mcq_language_selection"
def STATE_POST_LEARN : String := "post_learn"
def STATE_POST_QUIZ : String := "post_quiz"

/-- The `PHRASES` table (keys not in the table give `""`, matching
`PHRASES.get(key, "")`). -/
def PHRASES (key : String) : String :=
  if key = "welcome" then
    "Hi! 👋 What would you like help with today?\n\n*Reply with a number:*\n1️⃣ Learn about a topic\n2️⃣ Test your knowledge with MCQs"
  else if key = "learn_prompt" then "📚 What topic would you like to learn about?"
  else if key = "mcq_prompt" then "📝 What topic would you like a quiz on?"
  else if key = "language_prompt" then
    "Great choice! Now, please tell me the language you want to learn in (e.g., English, Hindi, Spanish)."
  else if key = "invalid_option" then "Please enter a valid option: 1 or 2."
  else if key = "getting_content_message" then
    "🔍 Getting content for '\x7b\x7d'...\n⏳ This might take a moment, please wait!"
  else if key = "search_message" then "Finding and explaining the topic for you... ⏳"
  else if key = "notes_intro" then "📘 Here's the explanation of '\x7b\x7d':"
  else if key = "post_learn_prompt" then
    "Would you like a downloadable PDF of these notes or a quiz to test your knowledge?\n\nReply with 'PDF' or 'Quiz'."
  else if key = "post_quiz_prompt" then
    "Would you like a downloadable PDF of the notes? Reply with 'Yes' to get them."
  else if key = "download_success" then "Generating your notes as a PDF... 📄"
  else if key = "document_caption" then "Here are your downloadable notes for \x7b\x7d!"
  else if key = "no_notes" then "❌ I'm sorry, I couldn't find the notes to download."
  else if key = "quiz_getting_content" then
    "🧠 Generating quiz questions for '\x7b\x7d'...\n⏳ This might take a moment, please wait!"
  else if key = "quiz_message" then "Generating an insightful quiz on '\x7b\x7d'... 🤔"
  else if key = "quiz_intro" then "🧠 Here's your quiz:"
  else if key = "quiz_error" then "❌ Couldn't generate the MCQs. Try again later."
  else if key = "fetch_error" then "❌ Couldn't fetch learning content right now."
  else if key = "unknown_error" then "❌ Something went wrong! Please say 'hi edgo' to start again."
  else if key = "unknown_command" then
    "I'm not sure what you mean. Please say 'hi edgo' to get the main menu."
  else if key = "pdf_word" then "pdf"
  else if key = "quiz_word" then "quiz"
  else if key = "yes_word" then "yes"
  else if key = "end_conversation" then "Okay, let me know if you need anything else! 😊"
  else if key = "pdf_font_error" then
    "❌ I couldn't generate the PDF because the required font file for your language could not be found. Please ensure you have a font file that supports your language (e.g., 'NotoSans-Regular.ttf') in the same directory as the bot script."
  else if key = "connection_error" then "❌ Something went wrong! Please say 'hi edgo' to start again."
  else ""

/-- `get_translated_phrase(language, key)`.  The external translator is the
oracle `tr : language → phrase → translated text` (which also covers the
fall-back-to-original-on-exception behaviour, since `tr` is arbitrary). -/
def get_translated_phrase (tr : String → String → String) (language key : String) : String :=
  let phrase := PHRASES key
  if phrase = "" || asciiLower language = "english" then phrase else tr language phrase

/-! ## Outbound effects and the handler functions (`app.py`, lines 329-532)

A handler produces the ordered list of outbound operations it attempts
(`send_message`, `send_document`, `call_gemini`) plus the final store content
for the user (`none` = session absent/deleted).  External collaborators are
oracles:

* `tr` — the translator (see `get_translated_phrase`);
* `sendOk n` — the boolean returned by the `n`-th `send_message` call of the
  handler invocation (the code only inspects it for the chunk-loop sends);
* `pdfOk` — whether `create_pdf_notes` returns a buffer (`True`) or `None`;
* `gem` — the result of `call_gemini(prompt)`.

A handler returns `none` (no result at all) exactly when `split_message`
inside it fails to terminate, which the fuel semantics reports as `none`. -/

inductive Effect where
  | sendMsg (text : String)
  | sendDoc (filename caption : String)
  | geminiCall (prompt : String)
deriving DecidableEq

/-- The prompt built by `handle_learn_topic_request`. -/
def learn_prompt_text (topic language : String) : String :=
  "Act as a friendly and knowledgeable tutor for all educational topics. Your goal is to simplify and explain the following topic for a student in a simple and clear manner:\n\nTopic: "
    ++ topic
    ++ "\n\nPlease provide a detailed, explanation in "
    ++ language
    ++ " in simple language using **Markdown bullet points**.After the main explanation, provide two sections:\n1. **Explore More** with links to relevant websites for deeper learning.\n2. **Watch and Learn** with links to relevant YouTube videos."

/-- The prompt built by `handle_mcq_request`. -/
def mcq_prompt_text (topic language : String) : String :=
  "Create 5 challenging and insightful multiple-choice questions (MCQs) on the topic: '"
    ++ topic
    ++ "' in "
    ++ language
    ++ ".\nFor each question, provide 4 options (A, B, C, D).\nDirectly after each question, provide the correct answer and a brief, 1-2 line explanation of why it is correct.\nUse Markdown to format the questions and answers clearly."

/-- `f"\x7btopic.replace(' ', '_')\x7d_notes.pdf"`. -/
def mkNotesFilename (topic : String) : String :=
  String.mk (topic.toList.map fun c => if c = ' ' then '_' else c) ++ "_notes.pdf"

/-- The chunk-sending loop shared by `handle_learn_topic_request` and
`handle_mcq_request`:

```python
for chunk in split_message(...):
    if not send_message(chat_id, chunk):
        cleanup_user_state(chat_id)
        return
```

Returns the sends attempted (a failed send is still attempted) and whether
all of them succeeded. -/
def sendChunks (sendOk : Nat → Bool) (idx : Nat) : List String → List Effect × Bool
  | [] => ([], true)
  | c :: rest =>
    if sendOk idx then
      let r := sendChunks sendOk (idx + 1) rest
      (Effect.sendMsg c :: r.1, r.2)
    else ([Effect.sendMsg c], false)

/-- `handle_learn_topic_request(chat_id)` (`app.py`, lines 398-438).
`s0` is the store content for the user at entry (`get_user_state` yields
`s0.getD emptySession`). -/
def handle_learn_topic_request (tr : String → String → String) (sendOk : Nat → Bool)
    (gem : Option String) (s0 : Option Session) : Option (List Effect × Option Session) :=
  let state := s0.getD emptySession
  let topic := state.topic.getD "None"
  let language := state.language.getD "English"
  let prompt := learn_prompt_text topic language
  let pre : List Effect := [.sendMsg "🔄 Processing your request...", .geminiCall prompt]
  match gem with
  | some response =>
    let s1 := applyUpdate state { full_notes := some response }
    let formatted := format_bullet_points response
    let intro := Effect.sendMsg (pyFormat (get_translated_phrase tr "English" "notes_intro") topic)
    match split_message formatted.toList 1400 with
    | none => none
    | some chunks =>
      let r := sendChunks sendOk 2 (chunks.map String.mk)
      if r.2 then
        some (pre ++ [intro] ++ r.1
                ++ [.sendMsg (get_translated_phrase tr "English" "post_learn_prompt")],
              some (applyUpdate s1 { step := some STATE_POST_LEARN }))
      else
        some (pre ++ [intro] ++ r.1, none)
  | none =>
    some (pre ++ [.sendMsg (get_translated_phrase tr "English" "fetch_error")], none)

/-- `handle_mcq_request(chat_id)` (`app.py`, lines 500-532). -/
def handle_mcq_request (tr : String → String → String) (sendOk : Nat → Bool)
    (gem : Option String) (s0 : Option Session) : Option (List Effect × Option Session) :=
  let state := s0.getD emptySession
  let topic := state.topic.getD "None"
  let language := state.language.getD "English"
  let prompt := mcq_prompt_text topic language
  let pre : List Effect := [.sendMsg "🔄 Processing your quiz...", .geminiCall prompt]
  match gem with
  | some response =>
    let intro := Effect.sendMsg (get_translated_phrase tr "English" "quiz_intro")
    match split_message response.toList 1400 with
    | none => none
    | some chunks =>
      let r := sendChunks sendOk 2 (chunks.map String.mk)
      if r.2 then
        some (pre ++ [intro] ++ r.1
                ++ [.sendMsg (get_translated_phrase tr "English" "post_quiz_prompt")],
              some (applyUpdate state { step := some STATE_POST_QUIZ }))
      else
        some (pre ++ [intro] ++ r.1, none)
  | none =>
    some (pre ++ [.sendMsg (get_translated_phrase tr "English" "quiz_error")], none)

/-- `handle_post_learn_request(chat_id, incoming_msg)` (`app.py`, lines 440-472). -/
def handle_post_learn_request (tr : String → String → String) (pdfOk : Bool)
    (sendOk : Nat → Bool) (gem : Option String) (s0 : Option Session) (msg : String) :
    Option (List Effect × Option Session) :=
  let state := s0.getD emptySession
  let language := state.language.getD "English"
  let pdf_word := asciiLower (get_translated_phrase tr language "pdf_word")
  let quiz_word := asciiLower (get_translated_phrase tr language "quiz_word")
  if asciiLower msg = pdf_word then
    let notes_text := state.full_notes.getD ""
    let topic := state.topic.getD "notes"
    if notes_text ≠ "" then
      let dl := Effect.sendMsg (get_translated_phrase tr "English" "download_success")
      if pdfOk then
        some ([dl, .sendDoc (mkNotesFilename topic)
                     (pyFormat (get_translated_phrase tr "English" "document_caption") topic)],
              none)
      else
        some ([dl, .sendMsg (get_translated_phrase tr "English" "pdf_font_error")], none)
    else
      some ([.sendMsg (get_translated_phrase tr "English" "no_notes")], none)
  else if asciiLower msg = quiz_word then
    handle_mcq_request tr sendOk gem s0
  else
    some ([.sendMsg "Please reply with 'PDF' or 'Quiz'."], none)

/-- `handle_post_quiz_request(chat_id, incoming_msg)` (`app.py`, lines 474-498).
Total (no chunker inside), so no outer `Option`. -/
def handle_post_quiz_request (tr : String → String → String) (pdfOk : Bool)
    (s0 : Option Session) (msg : String) : List Effect × Option Session :=
  let state := s0.getD emptySession
  let language := state.language.getD "English"
  let yes_word := asciiLower (get_translated_phrase tr language "yes_word")
  let effs :=
    if asciiLower msg = yes_word then
      let notes_text := state.full_notes.getD ""
      let topic := state.topic.getD "notes"
      if notes_text ≠ "" then
        let dl := Effect.sendMsg (get_translated_phrase tr "English" "download_success")
        if pdfOk then
          [dl, Effect.sendDoc (mkNotesFilename topic)
                 (pyFormat (get_translated_phrase tr "English" "document_caption") topic)]
        else
          [dl, Effect.sendMsg (get_translated_phrase tr "English" "pdf_font_error")]
      else
        [Effect.sendMsg (get_translated_phrase tr "English" "no_notes")]
    else
      [Effect.sendMsg (get_translated_phrase tr "English" "end_conversation")]
  (effs, none)

/-- `handle_menu_selection(chat_id, incoming_msg)` (`app.py`, lines 386-396). -/
def handle_menu_selection (tr : String → String → String) (s0 : Option Session)
    (msg : String) : List Effect × Option Session :=
  if msg = "1" then
    ([.sendMsg (get_translated_phrase tr "English" "learn_prompt")],
     some (applyUpdate (s0.getD emptySession) { step := some STATE_LEARN_TOPIC }))
  else if msg = "2" then
    ([.sendMsg (get_translated_phrase tr "English" "mcq_prompt")],
     some (applyUpdate (s0.getD emptySession) { step := some STATE_MCQ_TOPIC }))
  else
    ([.sendMsg (get_translated_phrase tr "English" "invalid_option")], s0)

/-- A greeting message (`"/start"` or `"hi edgo"`, case-insensitively):
the global interrupt checked first by `handle_message`. -/
def isGreeting (msg : String) : Prop :=
  asciiLower msg = "/start" ∨ asciiLower msg = "hi edgo"

instance (msg : String) : Decidable (isGreeting msg) := by
  unfold isGreeting; infer_instance

/-- `handle_message(chat_id, incoming_msg, state, user_state_dict)`
(`app.py`, lines 329-384).  `msg` is the incoming text after the webhook's
`.strip()`. -/
def handle_message (tr : String → String → String) (pdfOk : Bool) (sendOk : Nat → Bool)
    (gem : Option String) (s0 : Option Session) (msg : String) :
    Option (List Effect × Option Session) :=
  if isGreeting msg then
    some ([.sendMsg (get_translated_phrase tr "English" "welcome")],
          some { emptySession with step := some STATE_MENU })
  else
    let state := s0.getD emptySession
    if state.step = some STATE_MENU then
      some (handle_menu_selection tr s0 msg)
    else if state.step = some STATE_LEARN_TOPIC then
      let topic := pyStripS msg
      let s1 := applyUpdate state { topic := some topic }
      some ([.sendMsg (pyFormat (get_translated_phrase tr "English" "getting_content_message") topic),
             .sendMsg (get_translated_phrase tr "English" "language_prompt")],
            some (applyUpdate s1 { step := some STATE_LEARN_LANGUAGE_SELECTION }))
    else if state.step = some STATE_LEARN_LANGUAGE_SELECTION then
      let language := asciiCapitalize (pyStripS msg)
      handle_learn_topic_request tr sendOk gem
        (some (applyUpdate state { language := some language }))
    else if state.step = some STATE_POST_LEARN then
      handle_post_learn_request tr pdfOk sendOk gem s0 msg
    else if state.step = some STATE_POST_QUIZ then
      some (handle_post_quiz_request tr pdfOk s0 msg)
    else if state.step = some STATE_MCQ_TOPIC then
      let topic := pyStripS msg
      let s1 := applyUpdate state { topic := some topic }
      some ([.sendMsg (pyFormat (get_translated_phrase tr "English" "quiz_getting_content") topic),
             .sendMsg (get_translated_phrase tr "English" "language_prompt")],
            some (applyUpdate s1 { step := some STATE_MCQ_LANGUAGE_SELECTION }))
    else if state.step = some STATE_MCQ_LANGUAGE_SELECTION then
      let language := asciiCapitalize (pyStripS msg)
      handle_mcq_request tr sendOk gem
        (some (applyUpdate state { language := some language }))
    else
      some ([.sendMsg (get_translated_phrase tr "English" "unknown_command")], s0)

/-- Count of generation calls in an effect list. -/
def countGemini (effs : List Effect) : Nat :=
  effs.countP fun e => match e with | .geminiCall _ => true | _ => false

/-- Is an effect a document send? -/
def isDocEffect (e : Effect) : Bool :=
  match e with | .sendDoc _ _ => true | _ => false

/-- A chunk with no leading and no trailing (Python) whitespace. -/
def noEdgeWS (l : List Char) : Bool :=
  (l.head?.all fun c => !isPyWS c) && (l.getLast?.all fun c => !isPyWS c)

/-- The identity translator: what `get_translated_phrase` degenerates to for
English (used to instantiate oracle parameters in concrete runs). -/
def trId : String → String → String := fun _ p => p

/-! ## Lemmas about `pyStrip` -/

theorem length_dropWhile_le (p : Char → Bool) (l : List Char) :
    (l.dropWhile p).length ≤ l.length := by
  induction l with
  | nil => simp
  | cons c cs ih =>
    by_cases h : p c
    · simp only [List.dropWhile_cons, h, if_true]
      exact Nat.le_trans ih (Nat.le_succ _)
    · simp [List.dropWhile_cons, h]

theorem getLast?_cons_ne_nil {x : Char} {xs : List Char} (h : xs ≠ []) :
    (x :: xs).getLast? = xs.getLast? := by
  cases xs with
  | nil => exact absurd rfl h
  | cons y ys => rfl

theorem head?_dropWhile {p : Char → Bool} {l : List Char} {c : Char}
    (h : (l.dropWhile p).head? = some c) : p c = false := by
  induction l with
  | nil => rw [List.dropWhile_nil] at h; exact absurd h (by simp)
  | cons x xs ih =>
    by_cases hx : p x
    · exact ih (by simpa [List.dropWhile_cons, hx] using h)
    · rw [List.dropWhile_cons, if_neg hx] at h
      simp only [List.head?_cons, Option.some.injEq] at h
      subst h
      exact Bool.of_not_eq_true hx

theorem getLast?_dropWhile {p : Char → Bool} {l : List Char}
    (h : l.dropWhile p ≠ []) : (l.dropWhile p).getLast? = l.getLast? := by
  induction l with
  | nil => simp at h
  | cons x xs ih =>
    by_cases hx : p x
    · have hxs : xs.dropWhile p ≠ [] := by
        simpa [List.dropWhile_cons, hx] using h
      have hxs' : xs ≠ [] := by
        intro hnil
        exact hxs (by simp [hnil])
      rw [List.dropWhile_cons, if_pos hx, ih hxs, getLast?_cons_ne_nil hxs']
    · simp [List.dropWhile_cons, hx]

theorem pyStrip_length_le (l : List Char) : (pyStrip l).length ≤ l.length := by
  unfold pyStrip
  calc ((l.dropWhile isPyWS).reverse.dropWhile isPyWS).reverse.length
      = ((l.dropWhile isPyWS).reverse.dropWhile isPyWS).length := List.length_reverse _
    _ ≤ (l.dropWhile isPyWS).reverse.length := length_dropWhile_le _ _
    _ = (l.dropWhile isPyWS).length := List.length_reverse _
    _ ≤ l.length := length_dropWhile_le _ _

theorem pyStrip_noEdgeWS (l : List Char) : noEdgeWS (pyStrip l) = true := by
  unfold noEdgeWS pyStrip
  set A := l.dropWhile isPyWS with hA
  set B := A.reverse.dropWhile isPyWS with hB
  apply Bool.and_eq_true_iff.mpr
  constructor
  · -- head of B.reverse is the last of B, which is the last of A.reverse, i.e. the head of A
    rcases hh : B.reverse.head? with _ | c
    · simp
    · have h1 : B.getLast? = some c := by rw [← List.head?_reverse]; exact hh
      have hBne : B ≠ [] := by
        intro hnil; rw [hnil] at h1; simp at h1
      have h2 : A.reverse.getLast? = some c := by
        rw [← getLast?_dropWhile (p := isPyWS) (l := A.reverse) (by rw [← hB]; exact hBne), ← hB]
        exact h1
      have h3 : A.head? = some c := by rw [← List.getLast?_reverse]; exact h2
      have := head?_dropWhile (p := isPyWS) (l := l) (by rw [← hA]; exact h3)
      simp [hh, this]
  · -- last of B.reverse is the head of B, and B is a dropWhile
    rcases hh : B.reverse.getLast? with _ | c
    · simp
    · have h1 : B.head? = some c := by rw [← List.getLast?_reverse]; exact hh
      have := head?_dropWhile (p := isPyWS) (l := A.reverse) (by rw [← hB]; exact h1)
      simp [hh, this]

theorem pyStrip_eq_nil_of_all_ws {l : List Char} (h : ∀ c ∈ l, isPyWS c = true) :
    pyStrip l = [] := by
  unfold pyStrip
  have h1 : l.dropWhile isPyWS = [] := List.dropWhile_eq_nil_iff.mpr h
  simp [h1]

theorem pyStrip_ne_nil_of_mem_not_ws {l : List Char} {c : Char}
    (hc : c ∈ l) (hws : isPyWS c = false) : pyStrip l ≠ [] := by
  intro hnil
  unfold pyStrip at hnil
  have h1 : (l.dropWhile isPyWS).reverse.dropWhile isPyWS = [] := by
    have := congrArg List.reverse hnil
    simpa using this
  have h2 : ∀ x ∈ (l.dropWhile isPyWS).reverse, isPyWS x = true :=
    List.dropWhile_eq_nil_iff.mp h1
  have h3 : ∀ x ∈ l.dropWhile isPyWS, isPyWS x = true := by
    intro x hx; exact h2 x (by simpa using hx)
  -- but the non-whitespace element of `l` survives `dropWhile`
  have h4 : c ∈ l.takeWhile isPyWS ∨ c ∈ l.dropWhile isPyWS := by
    have := List.takeWhile_append_dropWhile isPyWS l
    rw [← this] at hc
    exact List.mem_append.mp hc
  rcases h4 with h4 | h4
  · have := List.mem_takeWhile_imp h4
    rw [this] at hws; exact Bool.false_ne_true hws.symm
  · have := h3 c h4
    rw [this] at hws; exact Bool.false_ne_true hws.symm

/-! ## Lemmas about `rfindSpace` and `splitStep` -/

theorem rfindSpaceAux_some {text : List Char} {a k i : Nat}
    (h : rfindSpaceAux text a k = some i) :
    a ≤ i ∧ i < a + k ∧ spaceAt text i = true ∧
      ∀ j, i < j → j < a + k → spaceAt text j = false := by
  induction k with
  | zero => simp [rfindSpaceAux] at h
  | succ k ih =>
    by_cases hs : spaceAt text (a + k) = true
    · simp only [rfindSpaceAux, hs, if_true, Option.some.injEq] at h
      subst h
      refine ⟨Nat.le_add_right _ _, by omega, hs, ?_⟩
      intro j hj1 hj2
      omega
    · simp only [rfindSpaceAux, hs, if_false] at h
      obtain ⟨h1, h2, h3, h4⟩ := ih h
      refine ⟨h1, by omega, h3, ?_⟩
      intro j hj1 hj2
      by_cases hjk : j = a + k
      · subst hjk; exact Bool.of_not_eq_true hs
      · exact h4 j hj1 (by omega)

theorem rfindSpaceAux_none {text : List Char} {a k : Nat}
    (h : rfindSpaceAux text a k = none) :
    ∀ j, a ≤ j → j < a + k → spaceAt text j = false := by
  induction k with
  | zero => intro j h1 h2; omega
  | succ k ih =>
    by_cases hs : spaceAt text (a + k) = true
    · simp [rfindSpaceAux, hs] at h
    · simp only [rfindSpaceAux, hs, if_false] at h
      intro j h1 h2
      by_cases hjk : j = a + k
      · subst hjk; exact Bool.of_not_eq_true hs
      · exact ih h j h1 (by omega)

/-- The next `start` computed by a loop iteration lies in
`[start, min (start + chunk_size) text.length]`. -/
theorem splitEnd_bounds (text : List Char) (cs start : Nat)
    (hstart : start < text.length) :
    start ≤ splitEnd text cs start ∧
      splitEnd text cs start ≤ min (start + cs) text.length := by
  unfold splitEnd
  simp only
  set e0 := min (start + cs) text.length with he0
  have he0start : start ≤ e0 := by omega
  split
  · rcases hr : rfindSpace text start e0 with _ | i
    · exact ⟨he0start, Nat.le_refl _⟩
    · have hr' : rfindSpaceAux text start (e0 - start) = some i := hr
      obtain ⟨h1, h2, _, _⟩ := rfindSpaceAux_some hr'
      refine ⟨h1, ?_⟩
      show i ≤ e0
      omega
  · exact ⟨he0start, Nat.le_refl _⟩

/-- The two components of `splitStep`, stated for rewriting. -/
theorem splitStep_fst (text : List Char) (cs start : Nat) :
    (splitStep text cs start).1 = splitEnd text cs start := rfl

theorem splitStep_snd (text : List Char) (cs start : Nat) :
    (splitStep text cs start).2 =
      if (pyStrip (slice text start (splitEnd text cs start))).isEmpty then none
      else some (pyStrip (slice text start (splitEnd text cs start))) := rfl

/-! ## The main invariant of the `split_message` loop

Whenever the loop terminates (the fuel semantics returns `some l`), the text
from the current position decomposes into consecutive segments of length at
most `chunk_size` and the output is exactly the list of non-empty strips of
those segments. -/

theorem splitRun_spec (text : List Char) (cs : Nat) :
    ∀ fuel start l, splitRun text cs fuel start = some l →
      ∃ segs : List (List Char),
        segs.flatten = text.drop start ∧
        (∀ s ∈ segs, s.length ≤ cs) ∧
        l = (segs.map pyStrip).filter (fun c => !c.isEmpty) := by
  intro fuel
  induction fuel with
  | zero =>
    intro start l h
    by_cases hs : start < text.length
    · simp [splitRun, hs] at h
    · simp only [splitRun, hs, if_false, Option.some.injEq] at h
      subst h
      have hd : text.drop start = [] := List.drop_eq_nil_of_le (by omega)
      exact ⟨[], by simp [hd], by simp, by simp⟩
  | succ fuel ih =>
    intro start l h
    by_cases hs : start < text.length
    · simp only [splitRun, hs, if_true] at h
      rcases hrec : splitRun text cs fuel (splitStep text cs start).1 with _ | rest
      · rw [hrec] at h; simp at h
      · rw [hrec] at h
        obtain ⟨segs', hflat, hlen, hrest⟩ := ih _ _ hrec
        obtain ⟨hge, hle⟩ := splitEnd_bounds text cs start hs
        rw [splitStep_fst] at hflat
        refine ⟨slice text start (splitEnd text cs start) :: segs', ?_, ?_, ?_⟩
        · -- the slice and the tail segments tile `text.drop start`
          simp only [List.flatten_cons, hflat]
          unfold slice
          have h1 : text.drop (splitEnd text cs start)
              = (text.drop start).drop (splitEnd text cs start - start) := by
            rw [List.drop_drop]
            congr 1
            omega
          rw [h1, List.take_append_drop]
        · intro s hsmem
          rcases List.mem_cons.mp hsmem with h1 | h1
          · subst h1
            unfold slice
            rw [List.length_take]
            have h2 : splitEnd text cs start - start ≤ cs := by omega
            omega
          · exact hlen s h1
        · rw [splitStep_snd] at h
          set e := splitEnd text cs start with hee
          by_cases hemp : (pyStrip (slice text start e)).isEmpty
          · rw [if_pos hemp] at h
            simp only [Option.some.injEq] at h
            subst h
            simp only [List.map_cons, List.filter_cons, hrest]
            rw [if_neg (by simp [hemp])]
          · rw [if_neg hemp] at h
            simp only [Option.some.injEq] at h
            subst h
            simp only [List.map_cons, List.filter_cons, hrest]
            rw [if_pos (by simp at hemp ⊢; exact hemp)]
    · simp only [splitRun, hs, if_false, Option.some.injEq] at h
      subst h
      have hd : text.drop start = [] := List.drop_eq_nil_of_le (by omega)
      exact ⟨[], by simp [hd], by simp, by simp⟩

/-! ## Claims C4, C5, C6 — the chunker -/

/-- Claim C4 (code bug): the claim says `split_message` terminates on every
input for every positive chunk size.  It does not: on the two-character input
`" a"` with chunk size 1 (and likewise on `' ' + 'a'*1401` with the default
chunk size 1400), the first iteration computes `end = min(start+1, 2) = 1`,
sees the non-whitespace `'a'` at `text[1]`, finds the last space of the
window at index 0 = `start`, sets `end = 0`, produces an empty chunk and
leaves `start` at 0 — the loop never advances.  In the fuel semantics: no
amount of fuel makes the loop finish. -/
theorem claim_C4 : ∀ fuel, splitRun [' ', 'a'] 1 fuel 0 = none := by
  intro fuel
  induction fuel with
  | zero => rfl
  | succ f ih =>
    have hstep1 : (splitStep [' ', 'a'] 1 0).1 = 0 := by decide
    have hstep2 : (splitStep [' ', 'a'] 1 0).2 = none := by decide
    show splitRun [' ', 'a'] 1 (f + 1) 0 = none
    unfold splitRun
    rw [if_pos (by decide)]
    rw [hstep1, ih]

/-- Claim C5 counterexample: the claim's universally quantified opening —
"for every input string, `split_message` returns a sequence ..." — fails:
on the input `" b"` with chunk size 1 the chunker never returns (the fuel
semantics yields `none`, cf. the non-termination established for C4). -/
theorem claim_C5_cex : split_message " b".toList 1 = none := by decide

/-- Claim C5 (amended): whenever the chunker terminates (`splitRun` returns
`some l` for some fuel), every produced chunk is non-empty, at most
`chunk_size` characters, and free of leading/trailing whitespace; the chunks
are exactly the non-empty strips of consecutive segments tiling the input
(the round-trip property: rejoining the segments reproduces the input, and
each chunk differs from its segment only by the trimmed edge whitespace);
the empty input and all-whitespace inputs yield the empty sequence; and a
non-whitespace input shorter than `chunk_size` yields the single chunk
`strip(text)`. -/
theorem claim_C5 (text : List Char) (cs fuel : Nat) (l : List (List Char))
    (h : splitRun text cs fuel 0 = some l) :
    (∀ c ∈ l, c ≠ [] ∧ c.length ≤ cs ∧ noEdgeWS c = true)
    ∧ (∃ segs : List (List Char), segs.flatten = text ∧
         l = (segs.map pyStrip).filter (fun c => !c.isEmpty))
    ∧ (text = [] → l = [])
    ∧ ((∀ ch ∈ text, isPyWS ch = true) → l = [])
    ∧ (text.length < cs → (∃ ch ∈ text, isPyWS ch = false) → l = [pyStrip text]) := by
  obtain ⟨segs, hflat, hlen, hl⟩ := splitRun_spec text cs fuel 0 l h
  rw [List.drop_zero] at hflat
  refine ⟨?_, ⟨segs, hflat, hl⟩, ?_, ?_, ?_⟩
  · intro c hc
    rw [hl] at hc
    obtain ⟨hcm, hcp⟩ := List.mem_filter.mp hc
    obtain ⟨s, hsm, hs⟩ := List.mem_map.mp hcm
    subst hs
    refine ⟨?_, ?_, pyStrip_noEdgeWS s⟩
    · intro hnil
      rw [hnil] at hcp
      simp at hcp
    · exact le_trans (pyStrip_length_le s) (hlen s hsm)
  · intro htext
    subst htext
    cases fuel with
    | zero => simpa [splitRun] using h
    | succ f => simpa [splitRun] using h
  · intro hws
    rw [hl]
    apply List.filter_eq_nil_iff.mpr
    intro c hcm
    obtain ⟨s, hsm, hs⟩ := List.mem_map.mp hcm
    subst hs
    have hstrip : pyStrip s = [] := by
      apply pyStrip_eq_nil_of_all_ws
      intro ch hch
      apply hws
      rw [← hflat]
      exact List.mem_flatten.mpr ⟨s, hsm, hch⟩
    simp [hstrip]
  · rintro hlt ⟨ch, hchm, hchw⟩
    have hne : text ≠ [] := by
      intro hnil
      rw [hnil] at hchm
      simp at hchm
    have hlen0 : 0 < text.length := List.length_pos.mpr hne
    cases fuel with
    | zero => simp [splitRun, hlen0] at h
    | succ f =>
      have hend : splitEnd text cs 0 = text.length := by
        unfold splitEnd
        simp only [Nat.zero_add]
        have h0 : min cs text.length = text.length := by omega
        rw [h0]
        simp
      have hslice : slice text 0 (splitEnd text cs 0) = text := by
        rw [hend]
        unfold slice
        simp
      have hne' : pyStrip text ≠ [] := pyStrip_ne_nil_of_mem_not_ws hchm hchw
      have hchunk : (splitStep text cs 0).2 = some (pyStrip text) := by
        rw [splitStep_snd, hslice, if_neg (by simpa using hne')]
      have hrest : splitRun text cs f text.length = some [] := by
        cases f <;> simp [splitRun]
      simp only [splitRun, hlen0, if_true] at h
      rw [splitStep_fst, hend, hrest, hchunk] at h
      simp only [Option.some.injEq] at h
      exact h.symm

/-- Claim C5 witness: a concrete terminating run (`"hi"` with chunk size 3)
instantiating the amended theorem. -/
theorem claim_C5_witness :
    (∀ c ∈ [['h', 'i']], c ≠ [] ∧ c.length ≤ 3 ∧ noEdgeWS c = true)
    ∧ (∃ segs : List (List Char), segs.flatten = "hi".toList ∧
         [['h', 'i']] = (segs.map pyStrip).filter (fun c => !c.isEmpty))
    ∧ ("hi".toList = [] → [['h', 'i']] = [])
    ∧ ((∀ ch ∈ "hi".toList, isPyWS ch = true) → [['h', 'i']] = [])
    ∧ ("hi".toList.length < 3 → (∃ ch ∈ "hi".toList, isPyWS ch = false) →
         [['h', 'i']] = [pyStrip "hi".toList]) :=
  claim_C5 "hi".toList 3 3 [['h', 'i']] (by decide)

/-- Claim C6 counterexample: the claim says any whitespace character (space,
newline or tab) inside the window is used for the backward cut.  The code
only searches for a space (`text.rfind(' ', ...)`): on `"ab\ncd"` with chunk
size 4 the window `[0,4)` contains the newline at index 2 and the character
after the boundary is `'d'` (not whitespace), yet the cut is placed at the
boundary 4, not at 2, and the produced chunks are `["ab\nc", "d"]` instead
of the claimed `["ab", "cd"]`. -/
theorem claim_C6_cex :
    splitEnd "ab\ncd".toList 4 0 = 4
    ∧ "ab\ncd".toList.getD 2 '\x00' = '\n'
    ∧ isBreakChar ("ab\ncd".toList.getD 4 '\x00') = false
    ∧ split_message "ab\ncd".toList 4 = some [['a', 'b', '\n', 'c'], ['d']]
    ∧ (4 : Nat) ≠ 2 := by decide

/-- Claim C6 (amended): in a forward-scan window whose boundary character is
not one of space/newline/tab, the cut is placed at the last *space* of the
window when one exists (newlines and tabs are not considered by the backward
search), and exactly at `start + chunk_size` when the window contains no
space. -/
theorem claim_C6 (text : List Char) (cs start : Nat)
    (h1 : start + cs < text.length)
    (h2 : isBreakChar (text.getD (start + cs) '\x00') = false) :
    ((∃ i, start ≤ i ∧ i < start + cs ∧ spaceAt text i = true) →
      ∃ i, splitEnd text cs start = i ∧ start ≤ i ∧ i < start + cs ∧
        spaceAt text i = true ∧ ∀ j, i < j → j < start + cs → spaceAt text j = false)
    ∧ ((∀ j, start ≤ j → j < start + cs → spaceAt text j = false) →
      splitEnd text cs start = start + cs) := by
  have he0 : min (start + cs) text.length = start + cs := by omega
  have hsE : splitEnd text cs start =
      match rfindSpace text start (start + cs) with
      | some i => i
      | none => start + cs := by
    unfold splitEnd
    simp only [he0]
    rw [if_pos (by rw [h2]; simp [h1])]
  constructor
  · rintro ⟨i0, hi0a, hi0b, hi0s⟩
    rcases hr : rfindSpace text start (start + cs) with _ | i
    · exfalso
      have hnone : rfindSpaceAux text start ((start + cs) - start) = none := hr
      have := rfindSpaceAux_none hnone i0 hi0a (by omega)
      rw [hi0s] at this
      exact absurd this (by decide)
    · have hsome : rfindSpaceAux text start ((start + cs) - start) = some i := hr
      obtain ⟨ha, hb, hc, hd⟩ := rfindSpaceAux_some hsome
      refine ⟨i, ?_, ha, by omega, hc, fun j hj1 hj2 => hd j hj1 (by omega)⟩
      rw [hsE, hr]
  · intro hno
    rcases hr : rfindSpace text start (start + cs) with _ | i
    · rw [hsE, hr]
    · exfalso
      have hsome : rfindSpaceAux text start ((start + cs) - start) = some i := hr
      obtain ⟨ha, hb, hc, _⟩ := rfindSpaceAux_some hsome
      have := hno i ha (by omega)
      rw [hc] at this
      exact absurd this (by decide)

/-- Claim C6 witness: on `"ab cd"` with chunk size 4 the boundary character
`'d'` is not whitespace, the window holds a space at index 2, and the cut
lands there; instantiates the amended theorem at concrete input. -/
theorem claim_C6_witness :
    ((∃ i, 0 ≤ i ∧ i < 0 + 4 ∧ spaceAt "ab cd".toList i = true) →
      ∃ i, splitEnd "ab cd".toList 4 0 = i ∧ 0 ≤ i ∧ i < 0 + 4 ∧
        spaceAt "ab cd".toList i = true ∧
        ∀ j, i < j → j < 0 + 4 → spaceAt "ab cd".toList j = false)
    ∧ ((∀ j, 0 ≤ j → j < 0 + 4 → spaceAt "ab cd".toList j = false) →
      splitEnd "ab cd".toList 4 0 = 0 + 4) :=
  claim_C6 "ab cd".toList 4 0 (by decide) (by decide)

/-! ## Claim C7 — timeout handling in `call_gemini` -/

/-- After `k` rate-limited attempts, a timeout at attempt `k` ends the loop
immediately with failure: the timeout exception escapes to the outer
`except`, so no further attempt is made. -/
theorem callGeminiFrom_timeout (attempts : Nat → AttemptResult) :
    ∀ (k fuel retries : Nat), k < fuel →
      (∀ j, j < k → attempts (retries + j) = .rateLimited) →
      attempts (retries + k) = .timeout →
      callGeminiFrom attempts retries fuel = (none, k + 1) := by
  intro k
  induction k with
  | zero =>
    intro fuel retries hk _ ht
    cases fuel with
    | zero => omega
    | succ f =>
      rw [Nat.add_zero] at ht
      simp [callGeminiFrom, ht]
  | succ k ih =>
    intro fuel retries hk hrl ht
    cases fuel with
    | zero => omega
    | succ f =>
      have h0 : attempts retries = .rateLimited := by
        have := hrl 0 (by omega)
        simpa using this
      have hrec : callGeminiFrom attempts (retries + 1) f = (none, k + 1) := by
        apply ih f (retries + 1) (by omega)
        · intro j hj
          have := hrl (j + 1) (by omega)
          rw [show retries + 1 + j = retries + (j + 1) by omega]
          exact this
        · rw [show retries + 1 + k = retries + (k + 1) by omega]
          exact ht
      simp [callGeminiFrom, h0, hrec]

/-- Claim C7 counterexample: a timeout on the very first attempt is *not*
retried — `call_gemini` reports failure after a single attempt even though
a later attempt would have succeeded, and 1 is below the retry ceiling 3. -/
theorem claim_C7_cex :
    call_gemini (fun n => if n = 0 then .timeout else .ok (some "recovered")) = none
    ∧ call_gemini_attempts (fun n => if n = 0 then .timeout else .ok (some "recovered")) = 1
    ∧ (1 : Nat) < max_retries := by decide

/-- Claim C7 (amended): a timeout is a *terminal* failure for `call_gemini`,
not a retryable one: if the first `k` attempts are rate-limited (`k` below
the retry ceiling) and attempt `k` times out, the client stops right there —
it returns failure having issued exactly `k + 1` attempts, instead of
retrying the timeout up to the rate-limit ceiling. -/
theorem claim_C7 (attempts : Nat → AttemptResult) (k : Nat)
    (hk : k < max_retries)
    (hrl : ∀ j, j < k → attempts j = .rateLimited)
    (ht : attempts k = .timeout) :
    call_gemini attempts = none ∧ call_gemini_attempts attempts = k + 1 := by
  have h := callGeminiFrom_timeout attempts k max_retries 0 hk
    (by intro j hj; simpa using hrl j hj) (by simpa using ht)
  unfold call_gemini call_gemini_attempts
  rw [h]
  exact ⟨rfl, rfl⟩

/-- Claim C7 witness: one rate-limited attempt followed by a timeout gives
failure after exactly two attempts. -/
theorem claim_C7_witness :
    call_gemini (fun n => if n = 0 then .rateLimited else .timeout) = none
    ∧ call_gemini_attempts (fun n => if n = 0 then .rateLimited else .timeout) = 1 + 1 :=
  claim_C7 (fun n => if n = 0 then .rateLimited else .timeout) 1
    (by decide)
    (by
      intro j hj
      have : j = 0 := by omega
      subst this
      rfl)
    rfl

/-! ## Claim C2 — atomicity of the session store

All four store operations run inside `with user_state_lock`, so each is one
atomic step; an execution of concurrent callers is an interleaving of these
steps.  Two whole `update` calls therefore commute when they write disjoint
fields, and neither write is lost.  But a read-modify-write *sequence*
(`get_user_state` … `update_user_state`, as every handler performs) is two
separate atomic steps, and interleaving two such sequences loses an update. -/

/-- The updates `u` and `v` write disjoint session fields. -/
def DisjointUpd (u v : SessionUpdate) : Prop :=
  (u.step = none ∨ v.step = none)
  ∧ (u.topic = none ∨ v.topic = none)
  ∧ (u.language = none ∨ v.language = none)
  ∧ (u.full_notes = none ∨ v.full_notes = none)
  ∧ (u.processing = none ∨ v.processing = none)

/-- Disjoint updates commute on a single session value. -/
theorem applyUpdate_comm (s : Session) (u v : SessionUpdate) (h : DisjointUpd u v) :
    applyUpdate (applyUpdate s u) v = applyUpdate (applyUpdate s v) u := by
  obtain ⟨h1, h2, h3, h4, h5⟩ := h
  unfold applyUpdate
  simp only [Session.mk.injEq]
  refine ⟨?_, ?_, ?_, ?_, ?_⟩
  · rcases h1 with h | h <;> rw [h]
  · rcases h2 with h | h <;> rw [h]
  · rcases h3 with h | h <;> rw [h]
  · rcases h4 with h | h <;> rw [h]
  · rcases h5 with h | h <;> rw [h]

/-- Claim C2 (amended): each single store operation is atomic (it holds
`user_state_lock`), so two concurrent `update_user_state` calls for the same
user writing disjoint fields commute and neither update is lost — the final
session contains every field value written by either call.  (What fails, and
forces the amendment, is the claim's last part: read-modify-write sequences
are *not* atomic as a unit; see the counterexample.) -/
theorem claim_C2 (store : Store) (chat_id : Nat) (u v : SessionUpdate)
    (h : DisjointUpd u v) :
    update_user_state (update_user_state store chat_id u) chat_id v
      = update_user_state (update_user_state store chat_id v) chat_id u
    ∧ (∀ a, u.step = some a ∨ v.step = some a →
        (get_user_state (update_user_state (update_user_state store chat_id u) chat_id v)
          chat_id).step = some a)
    ∧ (∀ a, u.topic = some a ∨ v.topic = some a →
        (get_user_state (update_user_state (update_user_state store chat_id u) chat_id v)
          chat_id).topic = some a)
    ∧ (∀ a, u.language = some a ∨ v.language = some a →
        (get_user_state (update_user_state (update_user_state store chat_id u) chat_id v)
          chat_id).language = some a)
    ∧ (∀ a, u.full_notes = some a ∨ v.full_notes = some a →
        (get_user_state (update_user_state (update_user_state store chat_id u) chat_id v)
          chat_id).full_notes = some a)
    ∧ (∀ a, u.processing = some a ∨ v.processing = some a →
        (get_user_state (update_user_state (update_user_state store chat_id u) chat_id v)
          chat_id).processing = some a) := by
  obtain ⟨h1, h2, h3, h4, h5⟩ := h
  have hbase : ∀ w : Store,
      get_user_state (update_user_state w chat_id v) chat_id
        = applyUpdate ((w chat_id).getD emptySession) v := by
    intro w
    unfold get_user_state update_user_state
    simp
  have hupd : (update_user_state store chat_id u) chat_id
      = some (applyUpdate ((store chat_id).getD emptySession) u) := by
    unfold update_user_state
    simp
  constructor
  · funext i
    unfold update_user_state
    by_cases hi : i = chat_id
    · simp only [hi, if_true, if_pos rfl, Option.getD_some]
      exact congrArg some (applyUpdate_comm _ _ _ ⟨h1, h2, h3, h4, h5⟩)
    · simp [hi]
  · rw [hbase, hupd]
    simp only [Option.getD_some]
    refine ⟨?_, ?_, ?_, ?_, ?_⟩
    · intro a ha
      rcases ha with ha | ha
      · rcases h1 with h | h
        · rw [ha] at h; exact absurd h (by simp)
        · unfold applyUpdate; simp only [h, ha]
      · unfold applyUpdate; simp only [ha]
    · intro a ha
      rcases ha with ha | ha
      · rcases h2 with h | h
        · rw [ha] at h; exact absurd h (by simp)
        · unfold applyUpdate; simp only [h, ha]
      · unfold applyUpdate; simp only [ha]
    · intro a ha
      rcases ha with ha | ha
      · rcases h3 with h | h
        · rw [ha] at h; exact absurd h (by simp)
        · unfold applyUpdate; simp only [h, ha]
      · unfold applyUpdate; simp only [ha]
    · intro a ha
      rcases ha with ha | ha
      · rcases h4 with h | h
        · rw [ha] at h; exact absurd h (by simp)
        · unfold applyUpdate; simp only [h, ha]
      · unfold applyUpdate; simp only [ha]
    · intro a ha
      rcases ha with ha | ha
      · rcases h5 with h | h
        · rw [ha] at h; exact absurd h (by simp)
        · unfold applyUpdate; simp only [h, ha]
      · unfold applyUpdate; simp only [ha]

/-- Claim C2 witness: two disjoint-field updates (one writes `topic`, the
other writes `language`) commute and both land in the stored session. -/
theorem claim_C2_witness :
    update_user_state (update_user_state (fun _ => none) 7 { topic := some "Algebra" }) 7
        { language := some "English" }
      = update_user_state (update_user_state (fun _ => none) 7 { language := some "English" }) 7
        { topic := some "Algebra" }
    ∧ (∀ a, ({ topic := some "Algebra" } : SessionUpdate).step = some a ∨
        ({ language := some "English" } : SessionUpdate).step = some a →
        (get_user_state (update_user_state (update_user_state (fun _ => none) 7
          { topic := some "Algebra" }) 7 { language := some "English" }) 7).step = some a)
    ∧ (∀ a, ({ topic := some "Algebra" } : SessionUpdate).topic = some a ∨
        ({ language := some "English" } : SessionUpdate).topic = some a →
        (get_user_state (update_user_state (update_user_state (fun _ => none) 7
          { topic := some "Algebra" }) 7 { language := some "English" }) 7).topic = some a)
    ∧ (∀ a, ({ topic := some "Algebra" } : SessionUpdate).language = some a ∨
        ({ language := some "English" } : SessionUpdate).language = some a →
        (get_user_state (update_user_state (update_user_state (fun _ => none) 7
          { topic := some "Algebra" }) 7 { language := some "English" }) 7).language = some a)
    ∧ (∀ a, ({ topic := some "Algebra" } : SessionUpdate).full_notes = some a ∨
        ({ language := some "English" } : SessionUpdate).full_notes = some a →
        (get_user_state (update_user_state (update_user_state (fun _ => none) 7
          { topic := some "Algebra" }) 7 { language := some "English" }) 7).full_notes = some a)
    ∧ (∀ a, ({ topic := some "Algebra" } : SessionUpdate).processing = some a ∨
        ({ language := some "English" } : SessionUpdate).processing = some a →
        (get_user_state (update_user_state (update_user_state (fun _ => none) 7
          { topic := some "Algebra" }) 7 { language := some "English" }) 7).processing = some a) :=
  claim_C2 (fun _ => none) 7 { topic := some "Algebra" } { language := some "English" }
    (by refine ⟨?_, ?_, ?_, ?_, ?_⟩ <;> simp)

/-- One read-modify-write transaction as the handlers perform it: read the
session with `get_user_state`, then write a value derived from what was read
with `update_user_state` (here: append a tag to `full_notes`). -/
def rmwNotesAppend (tag : String) (store : Store) (chat_id : Nat) : Store :=
  let s := get_user_state store chat_id
  update_user_state store chat_id { full_notes := some ((s.full_notes.getD "") ++ tag) }

/-- An interleaved schedule of the atomic steps of two such transactions:
both `get`s execute before either `update` (a schedule the per-operation
lock permits, since the lock is released between the two steps). -/
def rmwInterleaved (store : Store) (chat_id : Nat) : Store :=
  let s1 := get_user_state store chat_id
  let s2 := get_user_state store chat_id
  let st1 := update_user_state store chat_id
    { full_notes := some ((s1.full_notes.getD "") ++ "a") }
  update_user_state st1 chat_id { full_notes := some ((s2.full_notes.getD "") ++ "b") }

/-- Claim C2 counterexample: the claim says two concurrent read-modify-write
sequences for the same user cannot interleave.  They can: interleaving the
two `get`s before the two `update`s yields `full_notes = "b"` — the first
transaction's write is lost — while the two serial orders give `"ab"` and
`"ba"`.  The store serializes each operation, not read-modify-write pairs. -/
theorem claim_C2_cex :
    (get_user_state (rmwInterleaved (fun _ => none) 0) 0).full_notes = some "b"
    ∧ (get_user_state (rmwNotesAppend "b" (rmwNotesAppend "a" (fun _ => none) 0) 0) 0).full_notes
        = some "ab"
    ∧ (get_user_state (rmwNotesAppend "a" (rmwNotesAppend "b" (fun _ => none) 0) 0) 0).full_notes
        = some "ba"
    ∧ (some "b" : Option String) ≠ some "ab"
    ∧ (some "b" : Option String) ≠ some "ba" := by decide

/-! ## Helper lemmas about phrases, effects and the chunk-send loop -/

/-- For English the phrase table is used as is (the translator is skipped). -/
theorem gtp_english (tr : String → String → String) (key : String) :
    get_translated_phrase tr "English" key = PHRASES key := by
  unfold get_translated_phrase
  have h : asciiLower "English" = "english" := by decide
  rw [h]
  simp

theorem countGemini_nil : countGemini [] = 0 := rfl

theorem countGemini_cons (e : Effect) (l : List Effect) :
    countGemini (e :: l)
      = (match e with | .geminiCall _ => 1 | _ => 0) + countGemini l := by
  unfold countGemini
  rw [List.countP_cons]
  cases e <;> simp [Nat.add_comm]

theorem countGemini_append (l1 l2 : List Effect) :
    countGemini (l1 ++ l2) = countGemini l1 + countGemini l2 := by
  unfold countGemini
  rw [List.countP_append]

/-- The chunk-send loop issues only text sends, never generation calls. -/
theorem sendChunks_countGemini (sendOk : Nat → Bool) (l : List String) :
    ∀ idx, countGemini (sendChunks sendOk idx l).1 = 0 := by
  induction l with
  | nil => intro idx; rfl
  | cons c rest ih =>
    intro idx
    unfold sendChunks
    by_cases h : sendOk idx = true
    · rw [if_pos h]
      simp only
      rw [countGemini_cons, ih (idx + 1)]
    · rw [if_neg h]
      rfl

/-- If every chunk send succeeds, the loop sends every chunk and reports
success. -/
theorem sendChunks_all_ok (sendOk : Nat → Bool) (l : List String) :
    ∀ idx, (∀ j, j < l.length → sendOk (idx + j) = true) →
      sendChunks sendOk idx l = (l.map Effect.sendMsg, true) := by
  induction l with
  | nil => intro idx _; rfl
  | cons c rest ih =>
    intro idx hok
    have h0 : sendOk idx = true := by
      have := hok 0 (by simp)
      simpa using this
    unfold sendChunks
    rw [if_pos h0]
    have hrec := ih (idx + 1) (by
      intro j hj
      have := hok (j + 1) (by simpa using Nat.succ_lt_succ hj)
      rw [show idx + 1 + j = idx + (j + 1) by omega]
      exact this)
    rw [hrec]
    rfl

/-- If some chunk send fails, the loop reports failure. -/
theorem sendChunks_fail (sendOk : Nat → Bool) (l : List String) :
    ∀ idx, (∃ j, j < l.length ∧ sendOk (idx + j) = false) →
      (sendChunks sendOk idx l).2 = false := by
  induction l with
  | nil =>
    intro idx h
    obtain ⟨j, hj, _⟩ := h
    simp at hj
  | cons c rest ih =>
    intro idx h
    unfold sendChunks
    by_cases h0 : sendOk idx = true
    · rw [if_pos h0]
      simp only
      apply ih (idx + 1)
      obtain ⟨j, hj, hf⟩ := h
      cases j with
      | zero =>
        rw [Nat.add_zero] at hf
        rw [hf] at h0
        exact absurd h0 (by simp)
      | succ j' =>
        refine ⟨j', by simpa using hj, ?_⟩
        rw [show idx + 1 + j' = idx + (j' + 1) by omega]
        exact hf
    · rw [if_neg h0]

/-- The loop never sends more than the number of chunks. -/
theorem sendChunks_length_le (sendOk : Nat → Bool) (l : List String) :
    ∀ idx, (sendChunks sendOk idx l).1.length ≤ l.length := by
  induction l with
  | nil => intro idx; simp [sendChunks]
  | cons c rest ih =>
    intro idx
    unfold sendChunks
    by_cases h : sendOk idx = true
    · rw [if_pos h]
      simpa using ih (idx + 1)
    · rw [if_neg h]
      simp

/-! ## Helper lemmas about the handlers -/

/-- `handle_learn_topic_request` issues exactly one generation call, and the
session it stores (when it stores one) has the `processing` field of the
snapshot it read — the handler neither reads nor writes a processing flag. -/
theorem handle_learn_once (tr : String → String → String) (sendOk : Nat → Bool)
    (gem : Option String) (s0 : Option Session) (effs : List Effect) (st : Option Session)
    (h : handle_learn_topic_request tr sendOk gem s0 = some (effs, st)) :
    countGemini effs = 1
    ∧ (∀ s', st = some s' → s'.processing = (s0.getD emptySession).processing) := by
  cases gem with
  | none =>
    have hr : handle_learn_topic_request tr sendOk none s0
        = some ([Effect.sendMsg "🔄 Processing your request...",
                 .geminiCall (learn_prompt_text ((s0.getD emptySession).topic.getD "None")
                   ((s0.getD emptySession).language.getD "English")),
                 .sendMsg (get_translated_phrase tr "English" "fetch_error")], none) := rfl
    rw [hr] at h
    simp only [Option.some.injEq, Prod.mk.injEq] at h
    obtain ⟨he, hst⟩ := h
    subst he
    subst hst
    refine ⟨rfl, ?_⟩
    intro s' hs'
    exact absurd hs' (by simp)
  | some response =>
    simp only [handle_learn_topic_request] at h
    rcases hsm : split_message (format_bullet_points response).toList 1400 with _ | chunks
    · rw [hsm] at h
      exact absurd h (by simp)
    · rw [hsm] at h
      dsimp only at h
      by_cases hok : (sendChunks sendOk 2 (chunks.map String.mk)).2 = true
      · rw [if_pos hok] at h
        simp only [Option.some.injEq, Prod.mk.injEq] at h
        obtain ⟨he, hst⟩ := h
        subst he
        constructor
        · simp [countGemini_append, countGemini_cons, countGemini_nil,
            sendChunks_countGemini]
        · intro s' hs'
          rw [← hst] at hs'
          simp only [Option.some.injEq] at hs'
          subst hs'
          rfl
      · rw [if_neg hok] at h
        simp only [Option.some.injEq, Prod.mk.injEq] at h
        obtain ⟨he, hst⟩ := h
        subst he
        constructor
        · simp [countGemini_append, countGemini_cons, countGemini_nil,
            sendChunks_countGemini]
        · intro s' hs'
          rw [← hst] at hs'
          exact absurd hs' (by simp)

/-- `handle_mcq_request` stores a session only on full success, and that
session is exactly the snapshot with `step` overwritten to `POST_QUIZ` — in
particular `full_notes` is never written. -/
theorem handle_mcq_frame (tr : String → String → String) (sendOk : Nat → Bool)
    (gem : Option String) (s0 : Option Session) (effs : List Effect) (st : Option Session)
    (h : handle_mcq_request tr sendOk gem s0 = some (effs, st)) :
    ∀ s', st = some s' →
      s' = applyUpdate (s0.getD emptySession) { step := some STATE_POST_QUIZ } := by
  cases gem with
  | none =>
    have hr : handle_mcq_request tr sendOk none s0
        = some ([Effect.sendMsg "🔄 Processing your quiz...",
                 .geminiCall (mcq_prompt_text ((s0.getD emptySession).topic.getD "None")
                   ((s0.getD emptySession).language.getD "English")),
                 .sendMsg (get_translated_phrase tr "English" "quiz_error")], none) := rfl
    rw [hr] at h
    simp only [Option.some.injEq, Prod.mk.injEq] at h
    intro s' hs'
    rw [← h.2] at hs'
    exact absurd hs' (by simp)
  | some response =>
    simp only [handle_mcq_request] at h
    rcases hsm : split_message response.toList 1400 with _ | chunks
    · rw [hsm] at h
      exact absurd h (by simp)
    · rw [hsm] at h
      dsimp only at h
      by_cases hok : (sendChunks sendOk 2 (chunks.map String.mk)).2 = true
      · rw [if_pos hok] at h
        simp only [Option.some.injEq, Prod.mk.injEq] at h
        intro s' hs'
        rw [← h.2] at hs'
        simp only [Option.some.injEq] at hs'
        exact hs'.symm
      · rw [if_neg hok] at h
        simp only [Option.some.injEq, Prod.mk.injEq] at h
        intro s' hs'
        rw [← h.2] at hs'
        exact absurd hs' (by simp)

/-- The step-only update does not touch `full_notes`. -/
theorem applyUpdate_step_notes (s : Session) (v : String) :
    (applyUpdate s { step := some v }).full_notes = s.full_notes := rfl

/-- Routing: a non-greeting message for a session in
`STATE_LEARN_LANGUAGE_SELECTION` stores the capitalized language and runs
`handle_learn_topic_request`. -/
theorem handle_message_learn_lang (tr : String → String → String) (pdfOk : Bool)
    (sendOk : Nat → Bool) (gem : Option String) (s0 : Option Session) (msg : String)
    (hstep : (s0.getD emptySession).step = some STATE_LEARN_LANGUAGE_SELECTION)
    (hmsg : ¬ isGreeting msg) :
    handle_message tr pdfOk sendOk gem s0 msg
      = handle_learn_topic_request tr sendOk gem
          (some (applyUpdate (s0.getD emptySession)
            { language := some (asciiCapitalize (pyStripS msg)) })) := by
  unfold handle_message
  rw [if_neg hmsg]
  dsimp only
  rw [if_neg (by rw [hstep]; decide), if_neg (by rw [hstep]; decide), if_pos hstep]

/-- Routing: a non-greeting message for a session in
`STATE_MCQ_LANGUAGE_SELECTION` stores the capitalized language and runs
`handle_mcq_request`. -/
theorem handle_message_mcq_lang (tr : String → String → String) (pdfOk : Bool)
    (sendOk : Nat → Bool) (gem : Option String) (s0 : Option Session) (msg : String)
    (hstep : (s0.getD emptySession).step = some STATE_MCQ_LANGUAGE_SELECTION)
    (hmsg : ¬ isGreeting msg) :
    handle_message tr pdfOk sendOk gem s0 msg
      = handle_mcq_request tr sendOk gem
          (some (applyUpdate (s0.getD emptySession)
            { language := some (asciiCapitalize (pyStripS msg)) })) := by
  unfold handle_message
  rw [if_neg hmsg]
  dsimp only
  rw [if_neg (by rw [hstep]; decide), if_neg (by rw [hstep]; decide),
    if_neg (by rw [hstep]; decide), if_neg (by rw [hstep]; decide),
    if_neg (by rw [hstep]; decide), if_neg (by rw [hstep]; decide), if_pos hstep]

/-- A non-greeting message for a user with no stored session falls through
every step branch and is answered with the unknown-command notice; no
session is created. -/
theorem handle_message_absent (tr : String → String → String) (pdfOk : Bool)
    (sendOk : Nat → Bool) (gem : Option String) (msg : String)
    (hmsg : ¬ isGreeting msg) :
    handle_message tr pdfOk sendOk gem none msg
      = some ([.sendMsg (PHRASES "unknown_command")], none) := by
  unfold handle_message
  rw [if_neg hmsg]
  dsimp only
  rw [if_neg (by decide), if_neg (by decide), if_neg (by decide), if_neg (by decide),
    if_neg (by decide), if_neg (by decide), if_neg (by decide), gtp_english]

/-! ## Claim C1 — the `processing` duplicate-request guard -/

/-- A session sitting in the language-input step whose dict carries
`processing = True` (never written by this code, but named by the data
model). -/
def learnRunS0 : Option Session :=
  some { step := some STATE_LEARN_LANGUAGE_SELECTION, topic := some "Algebra",
         processing := some true }

/-- The effects the learn handler actually produces on that session. -/
def learnRunEffects : List Effect :=
  [.sendMsg "🔄 Processing your request...",
   .geminiCall (learn_prompt_text "Algebra" "English"),
   .sendMsg (pyFormat (PHRASES "notes_intro") "Algebra"),
   .sendMsg "body",
   .sendMsg (PHRASES "post_learn_prompt")]

/-- The session stored after that run. -/
def learnRunSession : Session :=
  { step := some STATE_POST_LEARN, topic := some "Algebra", language := some "English",
    full_notes := some "body", processing := some true }

/-- Claim C1 counterexample: the claim says a message for a session with
`processing = true` issues no generation call, and that otherwise the
handler sets and clears the flag.  In fact the code never reads or writes
any `processing` key: with `processing = true` in the session, the message
still issues exactly one generation call (1 ≠ 0), and the flag is still
`true` (never cleared, never set) in the stored session afterwards. -/
theorem claim_C1_cex :
    (handle_message trId true (fun _ => true) (some "body") learnRunS0 "english").map
        (fun r => countGemini r.1) = some 1
    ∧ (handle_message trId true (fun _ => true) (some "body") learnRunS0 "english").map
        (fun r => r.2) = some (some learnRunSession)
    ∧ (learnRunS0.getD emptySession).processing = some true
    ∧ learnRunSession.processing = some true
    ∧ (1 : Nat) ≠ 0 := by decide

/-- Claim C1 (amended): the language-input handler contains no duplicate
guard: it never reads or writes a `processing` flag.  Every non-greeting
message handled in `STATE_LEARN_LANGUAGE_SELECTION` issues exactly one
generation call regardless of the session's `processing` field, the stored
session keeps the `processing` value of the snapshot, and two messages
each handled from a snapshot in that step issue two generation calls in
total (not one). -/
theorem claim_C1 (tr : String → String → String) (pdfOk : Bool)
    (sendOk sendOk' : Nat → Bool) (gem gem' : Option String)
    (s0 s0' : Option Session) (msg msg' : String)
    (effs effs' : List Effect) (st st' : Option Session)
    (h1 : (s0.getD emptySession).step = some STATE_LEARN_LANGUAGE_SELECTION)
    (h1' : (s0'.getD emptySession).step = some STATE_LEARN_LANGUAGE_SELECTION)
    (hm : ¬ isGreeting msg) (hm' : ¬ isGreeting msg')
    (hr : handle_message tr pdfOk sendOk gem s0 msg = some (effs, st))
    (hr' : handle_message tr pdfOk sendOk' gem' s0' msg' = some (effs', st')) :
    countGemini effs = 1
    ∧ (∀ s2, st = some s2 → s2.processing = (s0.getD emptySession).processing)
    ∧ countGemini effs + countGemini effs' = 2 := by
  rw [handle_message_learn_lang tr pdfOk sendOk gem s0 msg h1 hm] at hr
  rw [handle_message_learn_lang tr pdfOk sendOk' gem' s0' msg' h1' hm'] at hr'
  obtain ⟨c1, p1⟩ := handle_learn_once _ _ _ _ _ _ hr
  obtain ⟨c1', _⟩ := handle_learn_once _ _ _ _ _ _ hr'
  refine ⟨c1, ?_, by omega⟩
  intro s2 hs2
  rw [p1 s2 hs2]
  rfl

set_option maxRecDepth 40000 in
/-- Claim C1 witness: a concrete run of the amended theorem on a session
with `processing = true`. -/
theorem claim_C1_witness :
    countGemini learnRunEffects = 1
    ∧ (∀ s2, (some learnRunSession : Option Session) = some s2 →
        s2.processing = (learnRunS0.getD emptySession).processing)
    ∧ countGemini learnRunEffects + countGemini learnRunEffects = 2 :=
  claim_C1 trId true (fun _ => true) (fun _ => true) (some "body") (some "body")
    learnRunS0 learnRunS0 "english" "english"
    learnRunEffects learnRunEffects (some learnRunSession) (some learnRunSession)
    (by decide) (by decide) (by decide) (by decide) (by decide) (by decide)

/-! ## Claim C3 — failure path and what happens after the session is gone -/

/-- Claim C3 counterexample: the claim says a user whose session is absent
has a subsequent non-greeting message handled as if in `MENU`.  It is not:
an absent session on input `"1"` yields the unknown-command notice and no
state change, whereas `MENU` handling of `"1"` sends the learn prompt and
advances to `STATE_LEARN_TOPIC` — observably different behaviour. -/
theorem claim_C3_cex :
    handle_message trId true (fun _ => true) none none "1"
      = some ([.sendMsg (PHRASES "unknown_command")], none)
    ∧ handle_message trId true (fun _ => true) none
        (some { step := some STATE_MENU }) "1"
      = some ([.sendMsg (PHRASES "learn_prompt")],
          some { step := some STATE_LEARN_TOPIC })
    ∧ ([Effect.sendMsg (PHRASES "unknown_command")], (none : Option Session))
        ≠ ([.sendMsg (PHRASES "learn_prompt")],
           some { step := some STATE_LEARN_TOPIC }) := by decide

/-- Claim C3 (amended): after a generation failure the user does receive the
error notice (`quiz_error` in quiz mode, `fetch_error` in learn mode) and
the session is deleted; but a subsequent non-greeting message for a user
with no session is answered with the unknown-command notice and leaves no
session — it is *not* handled as `MENU` behaviour. -/
theorem claim_C3 (tr : String → String → String) (pdfOk : Bool)
    (sendOk sendOk' sendOk2 : Nat → Bool) (gem2 : Option String)
    (s0q s0l : Option Session) (msgq msgl msg2 : String)
    (effsq effsl : List Effect) (stq stl : Option Session)
    (hmq : ¬ isGreeting msgq) (hml : ¬ isGreeting msgl) (hm2 : ¬ isGreeting msg2)
    (hq : (s0q.getD emptySession).step = some STATE_MCQ_LANGUAGE_SELECTION)
    (hl : (s0l.getD emptySession).step = some STATE_LEARN_LANGUAGE_SELECTION)
    (hrq : handle_message tr pdfOk sendOk none s0q msgq = some (effsq, stq))
    (hrl : handle_message tr pdfOk sendOk' none s0l msgl = some (effsl, stl)) :
    Effect.sendMsg (PHRASES "quiz_error") ∈ effsq ∧ stq = none
    ∧ Effect.sendMsg (PHRASES "fetch_error") ∈ effsl ∧ stl = none
    ∧ handle_message tr pdfOk sendOk2 gem2 none msg2
        = some ([.sendMsg (PHRASES "unknown_command")], none) := by
  rw [handle_message_mcq_lang tr pdfOk sendOk none s0q msgq hq hmq] at hrq
  rw [handle_message_learn_lang tr pdfOk sendOk' none s0l msgl hl hml] at hrl
  have hq2 : handle_mcq_request tr sendOk none
      (some (applyUpdate (s0q.getD emptySession)
        { language := some (asciiCapitalize (pyStripS msgq)) }))
      = some ([Effect.sendMsg "🔄 Processing your quiz...",
               .geminiCall (mcq_prompt_text
                 ((applyUpdate (s0q.getD emptySession)
                   { language := some (asciiCapitalize (pyStripS msgq)) }).topic.getD "None")
                 (asciiCapitalize (pyStripS msgq))),
               .sendMsg (get_translated_phrase tr "English" "quiz_error")], none) := rfl
  have hl2 : handle_learn_topic_request tr sendOk' none
      (some (applyUpdate (s0l.getD emptySession)
        { language := some (asciiCapitalize (pyStripS msgl)) }))
      = some ([Effect.sendMsg "🔄 Processing your request...",
               .geminiCall (learn_prompt_text
                 ((applyUpdate (s0l.getD emptySession)
                   { language := some (asciiCapitalize (pyStripS msgl)) }).topic.getD "None")
                 (asciiCapitalize (pyStripS msgl))),
               .sendMsg (get_translated_phrase tr "English" "fetch_error")], none) := rfl
  rw [hq2] at hrq
  rw [hl2] at hrl
  simp only [Option.some.injEq, Prod.mk.injEq] at hrq hrl
  obtain ⟨heq, hsq⟩ := hrq
  obtain ⟨hel, hsl⟩ := hrl
  subst heq
  subst hel
  refine ⟨?_, hsq.symm, ?_, hsl.symm, handle_message_absent tr pdfOk sendOk2 gem2 msg2 hm2⟩
  · rw [gtp_english]
    simp
  · rw [gtp_english]
    simp

set_option maxRecDepth 40000 in
/-- Claim C3 witness: concrete failing quiz and learn runs (generation
result `none`, i.e. `call_gemini` exhausted or errored) and a concrete
subsequent message for the now-absent session. -/
theorem claim_C3_witness :
    Effect.sendMsg (PHRASES "quiz_error")
      ∈ [Effect.sendMsg "🔄 Processing your quiz...",
         .geminiCall (mcq_prompt_text "Algebra" "English"),
         .sendMsg (PHRASES "quiz_error")]
    ∧ (none : Option Session) = none
    ∧ Effect.sendMsg (PHRASES "fetch_error")
      ∈ [Effect.sendMsg "🔄 Processing your request...",
         .geminiCall (learn_prompt_text "Algebra" "English"),
         .sendMsg (PHRASES "fetch_error")]
    ∧ (none : Option Session) = none
    ∧ handle_message trId true (fun _ => true) none none "next message"
        = some ([.sendMsg (PHRASES "unknown_command")], none) :=
  claim_C3 trId true (fun _ => true) (fun _ => true) (fun _ => true) none
    (some { step := some STATE_MCQ_LANGUAGE_SELECTION, topic := some "Algebra" })
    (some { step := some STATE_LEARN_LANGUAGE_SELECTION, topic := some "Algebra" })
    "english" "english" "next message"
    [Effect.sendMsg "🔄 Processing your quiz...",
     .geminiCall (mcq_prompt_text "Algebra" "English"),
     .sendMsg (PHRASES "quiz_error")]
    [Effect.sendMsg "🔄 Processing your request...",
     .geminiCall (learn_prompt_text "Algebra" "English"),
     .sendMsg (PHRASES "fetch_error")]
    none none
    (by decide) (by decide) (by decide) (by decide) (by decide) (by decide) (by decide)

/-! ## Claim C8 — the POST_QUIZ step -/

/-- The POST_QUIZ behaviour as described by the amended claim, written as an
explicit four-way case distinction on (affirmative, notes present, render
succeeds), to be compared with the embedded handler:
* affirmative, notes present, render succeeds → download notice + document;
* affirmative, notes present, render fails → download notice + font-error
  notice (no document);
* affirmative, notes absent → no-notes notice;
* not affirmative → closing notice. -/
def postQuizClaimedEffects (tr : String → String → String) (renderOk : Bool)
    (state : Session) (msg : String) : List Effect :=
  let affirmative :=
    asciiLower msg = asciiLower (get_translated_phrase tr (state.language.getD "English") "yes_word")
  let notesPresent := state.full_notes.getD "" ≠ ""
  let topic := state.topic.getD "notes"
  if affirmative ∧ notesPresent ∧ renderOk then
    [.sendMsg (get_translated_phrase tr "English" "download_success"),
     .sendDoc (mkNotesFilename topic)
       (pyFormat (get_translated_phrase tr "English" "document_caption") topic)]
  else if affirmative ∧ notesPresent then
    [.sendMsg (get_translated_phrase tr "English" "download_success"),
     .sendMsg (get_translated_phrase tr "English" "pdf_font_error")]
  else if affirmative then
    [.sendMsg (get_translated_phrase tr "English" "no_notes")]
  else
    [.sendMsg (get_translated_phrase tr "English" "end_conversation")]

/-- Claim C8 counterexample: the claim says any message that is not
(affirmative ∧ notes present) gets a *closing* notice.  An affirmative
message with absent notes gets the no-notes notice instead — the closing
notice (`end_conversation`) is not sent. -/
theorem claim_C8_cex :
    handle_post_quiz_request trId true
        (some { step := some STATE_POST_QUIZ, topic := some "Algebra",
                language := some "English" }) "yes"
      = ([.sendMsg (PHRASES "no_notes")], none)
    ∧ Effect.sendMsg (PHRASES "end_conversation")
        ∉ (handle_post_quiz_request trId true
            (some { step := some STATE_POST_QUIZ, topic := some "Algebra",
                    language := some "English" }) "yes").1 := by decide

/-- Claim C8 (amended): in POST_QUIZ, every incoming message is handled as
follows — if it equals the affirmative token and notes are present, the
handler announces the download and either sends the document (render
success) or a font-error notice (render failure); if it is affirmative but
notes are absent, a no-notes notice; otherwise the closing notice — and in
every case the session is deleted (the conversation ends).  Stated as a
refinement: the handler equals the claimed four-way behaviour. -/
theorem claim_C8 (tr : String → String → String) (pdfOk : Bool)
    (s0 : Option Session) (msg : String) :
    handle_post_quiz_request tr pdfOk s0 msg
      = (postQuizClaimedEffects tr pdfOk (s0.getD emptySession) msg, none) := by
  unfold handle_post_quiz_request postQuizClaimedEffects
  dsimp only
  split_ifs <;> first | rfl | tauto

/-! ## Claim C9 — outbound delivery failures -/

set_option maxRecDepth 40000 in
/-- Claim C9 counterexample: the claim says *any* failed send (including the
intro notice) aborts the remaining sends and resets the session.  Here the
intro-notice send (index 1) fails, yet the handler goes on to send the body
chunk and the follow-up prompt (5 sends attempted in total) and advances
the session to `POST_LEARN` instead of deleting it — its return value is
simply ignored. -/
theorem claim_C9_cex :
    handle_learn_topic_request trId (fun n => n != 1) (some "hello world")
        (some { step := some STATE_LEARN_LANGUAGE_SELECTION, topic := some "T",
                language := some "English" })
      = some ([.sendMsg "🔄 Processing your request...",
               .geminiCall (learn_prompt_text "T" "English"),
               .sendMsg (pyFormat (PHRASES "notes_intro") "T"),
               .sendMsg "hello world",
               .sendMsg (PHRASES "post_learn_prompt")],
          some { step := some STATE_POST_LEARN, topic := some "T",
                 language := some "English", full_notes := some "hello world" })
    ∧ (fun n => n != 1) 1 = false := by decide

/-- Claim C9 (amended): only a failure of a *body-chunk* send aborts the
transition: when some chunk send returns failure, the handler stops (the
follow-up prompt is never attempted — at most `3 + number of chunks`
effects occur, against `4 + number of chunks` for a full transition) and
deletes the session.  Failures of the processing notice, the intro notice
or the follow-up prompt are ignored and the transition completes. -/
theorem claim_C9 (tr : String → String → String) (sendOk : Nat → Bool)
    (s0 : Option Session) (response : String) (chunks : List (List Char))
    (effs : List Effect) (st : Option Session)
    (hchunks : split_message (format_bullet_points response).toList 1400 = some chunks)
    (hfail : ∃ j, j < chunks.length ∧ sendOk (2 + j) = false)
    (hrun : handle_learn_topic_request tr sendOk (some response) s0 = some (effs, st)) :
    st = none ∧ effs.length ≤ 3 + chunks.length := by
  simp only [handle_learn_topic_request] at hrun
  rw [hchunks] at hrun
  dsimp only at hrun
  have hf : (sendChunks sendOk 2 (chunks.map String.mk)).2 = false := by
    apply sendChunks_fail
    obtain ⟨j, hj, hjf⟩ := hfail
    exact ⟨j, by simpa using hj, hjf⟩
  rw [if_neg (by rw [hf]; simp)] at hrun
  simp only [Option.some.injEq, Prod.mk.injEq] at hrun
  obtain ⟨he, hst⟩ := hrun
  subst he
  refine ⟨hst.symm, ?_⟩
  have hlen := sendChunks_length_le sendOk (chunks.map String.mk) 2
  simp only [List.length_map] at hlen
  simp only [List.length_append, List.length_cons, List.length_nil]
  omega

set_option maxRecDepth 40000 in
/-- Claim C9 witness: a failing first-chunk send on a one-chunk body deletes
the session and stops before the follow-up prompt. -/
theorem claim_C9_witness :
    (none : Option Session) = none
    ∧ ([Effect.sendMsg "🔄 Processing your request...",
        .geminiCall (learn_prompt_text "T" "English"),
        .sendMsg (pyFormat (PHRASES "notes_intro") "T"),
        .sendMsg "hello world"] : List Effect).length ≤ 3 + [("hello world".toList)].length :=
  claim_C9 trId (fun n => n != 2)
    (some { step := some STATE_LEARN_LANGUAGE_SELECTION, topic := some "T",
            language := some "English" })
    "hello world" ["hello world".toList]
    [.sendMsg "🔄 Processing your request...",
     .geminiCall (learn_prompt_text "T" "English"),
     .sendMsg (pyFormat (PHRASES "notes_intro") "T"),
     .sendMsg "hello world"]
    none
    (by decide) ⟨0, by decide, by decide⟩ (by decide)

/-! ## Claim C10 — the quiz path never writes notes -/

/-- Claim C10 (confirmed): three facts that together substantiate the claim.
(a) Frame: whenever `handle_mcq_request` stores a session, that session is
exactly the input snapshot with `step` overwritten to `POST_QUIZ`; in
particular `full_notes`, `topic`, `language` and `processing` are
untouched.  (b) Reachability along the quiz menu path: starting from the
session the greeting creates (`step = MENU`, no notes), sending `"2"`, then
a topic, then a language, ends — when the quiz generation succeeds — in a
stored session whose `step` is `POST_QUIZ` and whose `full_notes` is
absent.  (c) Consequence: in POST_QUIZ with absent notes, the affirmative
branch sends exactly the no-notes notice — no document is ever sent. -/
theorem claim_C10 (tr : String → String → String) (pdfOk : Bool)
    (sendOkA sendOkB sendOkC : Nat → Bool) (gemA gemB gemC : Option String)
    (s0a : Option Session) (topicMsg langMsg msgPQ : String)
    (effsA e2 e3 : List Effect) (sA' : Session) (st2 st3 : Option Session)
    (sc : Session)
    (hA : handle_mcq_request tr sendOkA gemA s0a = some (effsA, some sA'))
    (hT : ¬ isGreeting topicMsg) (hL : ¬ isGreeting langMsg)
    (h2 : handle_message tr pdfOk sendOkB gemB
        (some { emptySession with step := some STATE_MCQ_TOPIC }) topicMsg
      = some (e2, st2))
    (h3 : handle_message tr pdfOk sendOkC gemC st2 langMsg = some (e3, st3))
    (hc1 : sc.full_notes = none)
    (hc2 : asciiLower msgPQ
      = asciiLower (get_translated_phrase tr (sc.language.getD "English") "yes_word")) :
    (sA' = applyUpdate (s0a.getD emptySession) { step := some STATE_POST_QUIZ }
      ∧ sA'.full_notes = (s0a.getD emptySession).full_notes
      ∧ sA'.topic = (s0a.getD emptySession).topic
      ∧ sA'.language = (s0a.getD emptySession).language
      ∧ sA'.processing = (s0a.getD emptySession).processing)
    ∧ (handle_message tr pdfOk sendOkB gemB (some { emptySession with step := some STATE_MENU }) "2"
        = some ([.sendMsg (PHRASES "mcq_prompt")],
            some { emptySession with step := some STATE_MCQ_TOPIC }))
    ∧ (∀ s3, st3 = some s3 → s3.full_notes = none ∧ s3.step = some STATE_POST_QUIZ)
    ∧ ((handle_post_quiz_request tr pdfOk (some sc) msgPQ).1
        = [.sendMsg (get_translated_phrase tr "English" "no_notes")]
      ∧ (handle_post_quiz_request tr pdfOk (some sc) msgPQ).2 = none) := by
  have hframeA := handle_mcq_frame tr sendOkA gemA s0a effsA (some sA') hA sA' rfl
  refine ⟨⟨hframeA, by rw [hframeA]; rfl, by rw [hframeA]; rfl,
    by rw [hframeA]; rfl, by rw [hframeA]; rfl⟩, ?_, ?_, ?_⟩
  · -- the MENU step on "2"
    unfold handle_message
    rw [if_neg (by decide)]
    dsimp only
    rw [if_pos (by decide)]
    unfold handle_menu_selection
    rw [if_neg (by decide), if_pos rfl, gtp_english]
    rfl
  · -- topic then language: follow the two runs
    intro s3 hs3
    -- evaluate the MCQ_TOPIC step
    have h2' : handle_message tr pdfOk sendOkB gemB
        (some { emptySession with step := some STATE_MCQ_TOPIC }) topicMsg
      = some ([.sendMsg (pyFormat (get_translated_phrase tr "English" "quiz_getting_content")
                 (pyStripS topicMsg)),
               .sendMsg (get_translated_phrase tr "English" "language_prompt")],
          some { step := some STATE_MCQ_LANGUAGE_SELECTION,
                 topic := some (pyStripS topicMsg) }) := by
      unfold handle_message
      rw [if_neg hT]
      dsimp only
      rw [if_neg (by decide), if_neg (by decide), if_neg (by decide), if_neg (by decide),
        if_neg (by decide), if_pos (by decide)]
      rfl
    rw [h2'] at h2
    simp only [Option.some.injEq, Prod.mk.injEq] at h2
    obtain ⟨_, hst2⟩ := h2
    rw [← hst2] at h3
    rw [handle_message_mcq_lang tr pdfOk sendOkC gemC
      (some { step := some STATE_MCQ_LANGUAGE_SELECTION, topic := some (pyStripS topicMsg) })
      langMsg rfl hL] at h3
    have := handle_mcq_frame tr sendOkC gemC _ _ _ h3 s3 hs3
    rw [this]
    exact ⟨rfl, rfl⟩
  · -- POST_QUIZ with no notes: affirmative lands in the no-notes branch
    unfold handle_post_quiz_request
    dsimp only
    rw [if_pos (by exact hc2), if_neg (by simp [hc1])]
    exact ⟨rfl, rfl⟩

/-- The session stored by the quiz path just before the language step runs
the generator (concrete instance for the C10 witness). -/
def quizSess2 : Session :=
  { step := some STATE_MCQ_LANGUAGE_SELECTION, topic := some "Algebra",
    language := some "English" }

/-- The session stored after the successful quiz generation (concrete
instance for the C10 witness): `step = POST_QUIZ`, no notes. -/
def quizSess3 : Session :=
  { step := some STATE_POST_QUIZ, topic := some "Algebra", language := some "English" }

/-- The effects of the successful concrete quiz-generation run. -/
def quizRunEffects : List Effect :=
  [.sendMsg "🔄 Processing your quiz...",
   .geminiCall (mcq_prompt_text "Algebra" "English"),
   .sendMsg (PHRASES "quiz_intro"),
   .sendMsg "the quiz",
   .sendMsg (PHRASES "post_quiz_prompt")]

set_option maxRecDepth 40000 in
/-- Claim C10 witness: the whole quiz conversation run concretely — menu
`"2"`, topic `"Algebra"`, language `"english"`, successful quiz generation —
ends in `POST_QUIZ` with `full_notes` absent, and the affirmative reply then
gets the no-notes notice and no document. -/
theorem claim_C10_witness :
    (quizSess3 = applyUpdate ((some quizSess2 : Option Session).getD emptySession)
        { step := some STATE_POST_QUIZ }
      ∧ quizSess3.full_notes = ((some quizSess2 : Option Session).getD emptySession).full_notes
      ∧ quizSess3.topic = ((some quizSess2 : Option Session).getD emptySession).topic
      ∧ quizSess3.language = ((some quizSess2 : Option Session).getD emptySession).language
      ∧ quizSess3.processing = ((some quizSess2 : Option Session).getD emptySession).processing)
    ∧ (handle_message trId true (fun _ => true) (some "the quiz")
        (some { emptySession with step := some STATE_MENU }) "2"
      = some ([.sendMsg (PHRASES "mcq_prompt")],
          some { emptySession with step := some STATE_MCQ_TOPIC }))
    ∧ (∀ s3, (some quizSess3 : Option Session) = some s3 →
        s3.full_notes = none ∧ s3.step = some STATE_POST_QUIZ)
    ∧ ((handle_post_quiz_request trId true (some quizSess3) "yes").1
        = [.sendMsg (get_translated_phrase trId "English" "no_notes")]
      ∧ (handle_post_quiz_request trId true (some quizSess3) "yes").2 = none) :=
  claim_C10 trId true (fun _ => true) (fun _ => true) (fun _ => true)
    (some "the quiz") (some "the quiz") (some "the quiz")
    (some quizSess2) "Algebra" "english" "yes"
    quizRunEffects
    [.sendMsg (pyFormat (PHRASES "quiz_getting_content") "Algebra"),
     .sendMsg (PHRASES "language_prompt")]
    quizRunEffects
    quizSess3
    (some { step := some STATE_MCQ_LANGUAGE_SELECTION, topic := some "Algebra" })
    (some quizSess3)
    quizSess3
    (by decide) (by decide) (by decide) (by decide) (by decide) (by decide) (by decide)

end Edgo
